import Mathlib

/-!
Verification of the selective caching reverse proxy (`app.py`).

Python strings are embedded as `List Char`; Python machine behaviour that can
raise is embedded as `Except PyErr _` (or `Option _` for the JSON decoder,
whose only failure mode is `json.JSONDecodeError`).  Definitions are
translated from `app.py`; the SQLite table backing the cache is modelled as an
association list with the primary-key `INSERT OR REPLACE` semantics, and the
Flask/urllib collaborators are modelled by explicit inputs (upstream outcome,
cache availability flags) and an event trace recording cache reads, cache
writes and upstream calls.
-/

namespace Apicache

/-- Python `s.startswith(pre)` on character lists. -/
def startsWithL : List Char → List Char → Bool
  | _, [] => true
  | [], _ :: _ => false
  | c :: cs, p :: ps => c == p && startsWithL cs ps

/-- Python `path.lstrip("/")`. -/
def pyLstrip (l : List Char) : List Char := l.dropWhile (fun c => c == '/')

/-- Python substring test `nd in hay` for strings. -/
def hasSub : List Char → List Char → Bool
  | [], nd => nd.isEmpty
  | h :: t, nd => startsWithL (h :: t) nd || hasSub t nd

/-- `ALLOWED_DOMAINS` from `app.py`. -/
def ALLOWED_DOMAINS : List (List Char) :=
  ["openexchangerates.org".toList, "api.twelvedata.com".toList]

/-- `CACHEABLE_PATHS` from `app.py`. -/
def CACHEABLE_PATHS : List (List Char) :=
  ["openexchangerates.org/api/historical".toList, "api.twelvedata.com/eod".toList]

/-- `is_allowed_domain` from `app.py`. -/
def is_allowed_domain (path : List Char) : Bool :=
  ALLOWED_DOMAINS.any (fun d => startsWithL (pyLstrip path) d)

/-- `is_cacheable_path` from `app.py`. -/
def is_cacheable_path (path : List Char) : Bool :=
  CACHEABLE_PATHS.any (fun p => startsWithL (pyLstrip path) p)

/-! ## JSON values, as produced by Python `json.loads`

Integer literals become arbitrary-precision `int`s; literals with a fraction
or exponent become floats, modelled here by their exact decimal value as a
rational (IEEE-754 rounding of the decimal literal is not modelled).  The
`NaN`/`Infinity`/`-Infinity` extensions accepted by `json.loads` are kept as
separate constructors. -/

inductive JVal where
  | null
  | jbool (b : Bool)
  | jint (n : Int)
  | jrat (q : ℚ)
  | jnan
  | jinf
  | jninf
  | jstr (s : List Char)
  | jarr (xs : List JVal)
  | jobj (kvs : List (List Char × JVal))

/-- JSON whitespace (as skipped by the Python decoder). -/
def isWsC (c : Char) : Bool := c == ' ' || c == '\t' || c == '\n' || c == '\r'

def skipWs (l : List Char) : List Char := l.dropWhile isWsC

def hexVal (c : Char) : Option Nat :=
  if '0' ≤ c ∧ c ≤ '9' then some (c.toNat - 48)
  else if 'a' ≤ c ∧ c ≤ 'f' then some (c.toNat - 87)
  else if 'A' ≤ c ∧ c ≤ 'F' then some (c.toNat - 70)
  else none

/-- Four hex digits of a `\uXXXX` escape. -/
def hex4 : List Char → Option (Nat × List Char)
  | a :: b :: c :: d :: t =>
    match hexVal a, hexVal b, hexVal c, hexVal d with
    | some x, some y, some z, some w => some (((x * 16 + y) * 16 + z) * 16 + w, t)
    | _, _, _, _ => none
  | _ => none

/-- A scalar value as a `Char`; code points that are not valid scalar values
(lone surrogates, which Python keeps in its `str`) are replaced by U+FFFD.
No string the policy compares against contains such characters, so the
replacement is unobservable in the decisions modelled here. -/
def charOf (n : Nat) : Char :=
  if n < 55296 then Char.ofNat n
  else if 57344 ≤ n ∧ n < 1114112 then Char.ofNat n
  else '�'

/-- JSON string body after the opening quote (strict mode: raw control
characters below U+0020 are rejected, escapes are the JSON ones, `\uXXXX`
with surrogate-pair combination). -/
def pStr : Nat → List Char → Option (List Char × List Char)
  | 0, _ => none
  | _, [] => none
  | fuel + 1, c :: t =>
    if c == '"' then some ([], t)
    else if c == '\\' then
      match t with
      | [] => none
      | e :: t2 =>
        if e == '"' then (pStr fuel t2).map (fun r => ('"' :: r.1, r.2))
        else if e == '\\' then (pStr fuel t2).map (fun r => ('\\' :: r.1, r.2))
        else if e == '/' then (pStr fuel t2).map (fun r => ('/' :: r.1, r.2))
        else if e == 'b' then (pStr fuel t2).map (fun r => ('\x08' :: r.1, r.2))
        else if e == 'f' then (pStr fuel t2).map (fun r => ('\x0C' :: r.1, r.2))
        else if e == 'n' then (pStr fuel t2).map (fun r => ('\n' :: r.1, r.2))
        else if e == 'r' then (pStr fuel t2).map (fun r => ('\r' :: r.1, r.2))
        else if e == 't' then (pStr fuel t2).map (fun r => ('\t' :: r.1, r.2))
        else if e == 'u' then
          match hex4 t2 with
          | none => none
          | some (n, t3) =>
            if 55296 ≤ n ∧ n < 56320 then
              match t3 with
              | '\\' :: 'u' :: t4 =>
                match hex4 t4 with
                | some (m, t5) =>
                  if 56320 ≤ m ∧ m < 57344 then
                    (pStr fuel t5).map
                      (fun r => (charOf (65536 + (n - 55296) * 1024 + (m - 56320)) :: r.1, r.2))
                  else (pStr fuel t3).map (fun r => (charOf n :: r.1, r.2))
                | none => (pStr fuel t3).map (fun r => (charOf n :: r.1, r.2))
              | _ => (pStr fuel t3).map (fun r => (charOf n :: r.1, r.2))
            else (pStr fuel t3).map (fun r => (charOf n :: r.1, r.2))
        else none
    else if c.toNat < 32 then none
    else (pStr fuel t).map (fun r => (c :: r.1, r.2))

def natOfDigits (ds : List Char) : Nat :=
  ds.foldl (fun a c => a * 10 + (c.toNat - 48)) 0

/-- Exact value of a decoded number literal with a fraction or exponent
(Python converts the matched literal with `float`; the exact decimal value is
used here). -/
def ratOfParts (neg : Bool) (ip fp : List Char) (ex : Int) : ℚ :=
  let m : ℚ := (natOfDigits (ip ++ fp) : ℚ)
  let q := m * (10 : ℚ) ^ (ex - (fp.length : Int))
  if neg then -q else q

/-- Number token, following the Python scanner's `NUMBER_RE`:
`(-?(?:0|[1-9]\d*))(\.\d+)?([eE][-+]?\d+)?`; a fraction or exponent that does
not fully match is left unconsumed (the literal ends before it). -/
def pNum (l : List Char) : Option (JVal × List Char) :=
  let (neg, l1) : Bool × List Char :=
    match l with
    | '-' :: t => (true, t)
    | _ => (false, l)
  match l1 with
  | [] => none
  | c :: _ =>
    if !c.isDigit then none
    else
      let (ipart, l2) : List Char × List Char :=
        if c == '0' then ([c], l1.drop 1)
        else (l1.takeWhile Char.isDigit, l1.dropWhile Char.isDigit)
      let (fpart, l3, hasF) : List Char × List Char × Bool :=
        match l2 with
        | '.' :: t =>
          let ds := t.takeWhile Char.isDigit
          if ds.isEmpty then ([], l2, false)
          else (ds, t.dropWhile Char.isDigit, true)
        | _ => ([], l2, false)
      let (ex, l4, hasE) : Int × List Char × Bool :=
        match l3 with
        | 'e' :: t =>
          (match t with
           | '-' :: t2 =>
             let ds := t2.takeWhile Char.isDigit
             if ds.isEmpty then (0, l3, false)
             else (-(natOfDigits ds : Int), t2.dropWhile Char.isDigit, true)
           | '+' :: t2 =>
             let ds := t2.takeWhile Char.isDigit
             if ds.isEmpty then (0, l3, false)
             else ((natOfDigits ds : Int), t2.dropWhile Char.isDigit, true)
           | _ =>
             let ds := t.takeWhile Char.isDigit
             if ds.isEmpty then (0, l3, false)
             else ((natOfDigits ds : Int), t.dropWhile Char.isDigit, true))
        | 'E' :: t =>
          (match t with
           | '-' :: t2 =>
             let ds := t2.takeWhile Char.isDigit
             if ds.isEmpty then (0, l3, false)
             else (-(natOfDigits ds : Int), t2.dropWhile Char.isDigit, true)
           | '+' :: t2 =>
             let ds := t2.takeWhile Char.isDigit
             if ds.isEmpty then (0, l3, false)
             else ((natOfDigits ds : Int), t2.dropWhile Char.isDigit, true)
           | _ =>
             let ds := t.takeWhile Char.isDigit
             if ds.isEmpty then (0, l3, false)
             else ((natOfDigits ds : Int), t.dropWhile Char.isDigit, true))
        | _ => (0, l3, false)
      if hasF || hasE then
        some (JVal.jrat (ratOfParts neg ipart fpart ex), l4)
      else
        let n : Int := (natOfDigits ipart : Int)
        some (JVal.jint (if neg then -n else n), l4)

mutual

/-- One JSON value at the current position (already whitespace-skipped),
following the dispatch of Python's `py_scanstring`/`JSONDecoder` scanner. -/
def pVal : Nat → List Char → Option (JVal × List Char)
  | 0, _ => none
  | fuel + 1, l =>
    if startsWithL l "null".toList then some (JVal.null, l.drop 4)
    else if startsWithL l "true".toList then some (JVal.jbool true, l.drop 4)
    else if startsWithL l "false".toList then some (JVal.jbool false, l.drop 5)
    else if startsWithL l "NaN".toList then some (JVal.jnan, l.drop 3)
    else if startsWithL l "Infinity".toList then some (JVal.jinf, l.drop 8)
    else if startsWithL l "-Infinity".toList then some (JVal.jninf, l.drop 9)
    else
      match l with
      | '"' :: t =>
        match pStr (t.length + 1) t with
        | some (s, r) => some (JVal.jstr s, r)
        | none => none
      | '\x7b' :: t => pObjBody fuel (skipWs t)
      | '[' :: t => pArrBody fuel (skipWs t)
      | _ => pNum l

/-- Object body after `\x7b` and whitespace. -/
def pObjBody : Nat → List Char → Option (JVal × List Char)
  | 0, _ => none
  | fuel + 1, l =>
    match l with
    | '\x7d' :: t => some (JVal.jobj [], t)
    | _ =>
      match pMembers fuel l with
      | some (kvs, r) => some (JVal.jobj kvs, r)
      | none => none

/-- One or more `"key": value` members, keeping source order (a duplicate key
is resolved by the Python `dict`, i.e. the last occurrence wins on lookup). -/
def pMembers : Nat → List Char → Option (List (List Char × JVal) × List Char)
  | 0, _ => none
  | fuel + 1, l =>
    match l with
    | '"' :: t =>
      match pStr (t.length + 1) t with
      | none => none
      | some (k, r) =>
        match skipWs r with
        | ':' :: r2 =>
          match pVal fuel (skipWs r2) with
          | none => none
          | some (v, r3) =>
            match skipWs r3 with
            | ',' :: r4 =>
              match pMembers fuel (skipWs r4) with
              | some (rest, r5) => some ((k, v) :: rest, r5)
              | none => none
            | '\x7d' :: r4 => some ([(k, v)], r4)
            | _ => none
        | _ => none
    | _ => none

/-- Array body after `[` and whitespace. -/
def pArrBody : Nat → List Char → Option (JVal × List Char)
  | 0, _ => none
  | fuel + 1, l =>
    match l with
    | ']' :: t => some (JVal.jarr [], t)
    | _ =>
      match pElems fuel l with
      | some (vs, r) => some (JVal.jarr vs, r)
      | none => none

/-- One or more array elements. -/
def pElems : Nat → List Char → Option (List JVal × List Char)
  | 0, _ => none
  | fuel + 1, l =>
    match pVal fuel l with
    | none => none
    | some (v, r) =>
      match skipWs r with
      | ',' :: r2 =>
        match pElems fuel (skipWs r2) with
        | some (vs, r3) => some (v :: vs, r3)
        | none => none
      | ']' :: r2 => some ([v], r2)
      | _ => none

end

/-- Python `json.loads`: decode one document, allowing surrounding
whitespace and rejecting trailing data.  `none` is `json.JSONDecodeError`. -/
def jparse (s : List Char) : Option JVal :=
  match pVal (4 * s.length + 8) (skipWs s) with
  | none => none
  | some (v, r) => if (skipWs r).isEmpty then some v else none

/-! ## Python runtime semantics used by `should_cache_response` -/

/-- The exceptions that can arise inside the `try` of the twelvedata branch.
`decodeError` is `json.JSONDecodeError`; `typeError` is a `TypeError`
(its interpreter message text is not modelled). -/
inductive PyErr where
  | typeError
  | keyError
  | decodeError
deriving DecidableEq

def codeL : List Char := "code".toList

/-- Python dict lookup as built by `json.loads`: on duplicate JSON keys the
last occurrence wins. -/
def dictGetLast (kvs : List (List Char × JVal)) (k : List Char) : Option JVal :=
  match kvs with
  | [] => none
  | (k', v) :: t =>
    match dictGetLast t k with
    | some r => some r
    | none => if k' == k then some v else none

def dictHasKey (kvs : List (List Char × JVal)) (k : List Char) : Bool :=
  kvs.any (fun p => p.1 == k)

/-- Python `"code" in json_data`: key membership for a dict, substring test
for a str, element equality for a list, and a `TypeError` for the
non-container results of `json.loads` (int, float, bool, None). -/
def pyInCode (v : JVal) : Except PyErr Bool :=
  match v with
  | .jobj kvs => .ok (dictHasKey kvs codeL)
  | .jstr s => .ok (hasSub s codeL)
  | .jarr xs =>
    .ok (xs.any (fun x =>
      match x with
      | .jstr s => s == codeL
      | _ => false))
  | _ => .error .typeError

/-- Python `json_data["code"]`: dict lookup (`KeyError` if absent); string
and list subscripts require integer indices, so a str or list raises
`TypeError` (the scalars are unsubscriptable, also `TypeError`). -/
def pySubscriptCode (v : JVal) : Except PyErr JVal :=
  match v with
  | .jobj kvs =>
    match dictGetLast kvs codeL with
    | some x => .ok x
    | none => .error .keyError
  | _ => .error .typeError

/-- Python `code == n` for an `int` literal `n`: numeric values compare
numerically (`bool` counts as 0/1, `nan` is not equal to anything), and
values of non-numeric type are simply unequal — `==` never raises. -/
def pyEqInt (v : JVal) (n : Int) : Bool :=
  match v with
  | .jint m => m == n
  | .jrat q => q == (n : ℚ)
  | .jbool b => (if b then (1 : Int) else 0) == n
  | _ => false

/-- Python `code >= n`: numeric comparison, `TypeError` for non-numbers. -/
def pyGeInt (v : JVal) (n : Int) : Except PyErr Bool :=
  match v with
  | .jint m => .ok (decide (n ≤ m))
  | .jrat q => .ok (decide ((n : ℚ) ≤ q))
  | .jbool b => .ok (decide (n ≤ (if b then (1 : Int) else 0)))
  | .jnan => .ok false
  | .jinf => .ok true
  | .jninf => .ok false
  | _ => .error .typeError

/-- Python `code < n`: numeric comparison, `TypeError` for non-numbers. -/
def pyLtInt (v : JVal) (n : Int) : Except PyErr Bool :=
  match v with
  | .jint m => .ok (decide (m < n))
  | .jrat q => .ok (decide (q < (n : ℚ)))
  | .jbool b => .ok (decide ((if b then (1 : Int) else 0) < n))
  | .jnan => .ok false
  | .jinf => .ok false
  | .jninf => .ok true
  | _ => .error .typeError

/-- `code == 429 or (code >= 500 and code < 600)` with Python's
short-circuit evaluation. -/
def errCodeCheck (c : JVal) : Except PyErr Bool :=
  if pyEqInt c 429 then .ok true
  else
    match pyGeInt c 500 with
    | .error e => .error e
    | .ok g => if g then pyLtInt c 600 else .ok false

/-- The body of the `try` in the twelvedata branch of
`should_cache_response`. -/
def tdTry (data : List Char) : Except PyErr Bool :=
  match jparse data with
  | none => .error .decodeError
  | some v =>
    match pyInCode v with
    | .error e => .error e
    | .ok has =>
      if has then
        match pySubscriptCode v with
        | .error e => .error e
        | .ok c =>
          match errCodeCheck c with
          | .error e => .error e
          | .ok isErr => if isErr then .ok false else .ok true
      else .ok true

/-- The twelvedata branch with its
`except (json.JSONDecodeError, KeyError): return True` handler; a
`TypeError` is not caught and propagates. -/
def tdBranch (data : List Char) : Except PyErr Bool :=
  match tdTry data with
  | .ok b => .ok b
  | .error .typeError => .error .typeError
  | .error _ => .ok true

/-- `should_cache_response` from `app.py`. -/
def should_cache_response (path : List Char) (status : Int) (data : List Char) :
    Except PyErr Bool :=
  if !is_cacheable_path path then .ok false
  else if status != 200 then .ok false
  else
    let pc := pyLstrip path
    if startsWithL pc "openexchangerates.org".toList then .ok true
    else if startsWithL pc "api.twelvedata.com".toList then tdBranch data
    else .ok false

/-! ## Cache store

The SQLite table `cache (requestHash TEXT PRIMARY KEY, data TEXT NOT NULL)`
is modelled as an association list with at most one row per key maintained by
the `INSERT OR REPLACE` write. -/

/-- `get_cached_data`: `SELECT data FROM cache WHERE requestHash = ?` and
`fetchone()`; `None` when no row matches. -/
def get_cached_data (db : List (List Char × List Char)) (k : List Char) :
    Option (List Char) :=
  (db.find? (fun r => r.1 == k)).map (fun r => r.2)

/-- `cache_data`: `INSERT OR REPLACE` deletes any row with the same primary
key and inserts the new one. -/
def cache_data (db : List (List Char × List Char)) (k v : List Char) :
    List (List Char × List Char) :=
  db.filter (fun r => r.1 != k) ++ [(k, v)]

/-! ## `str.encode()` (UTF-8) and `hashlib.sha256(...).hexdigest()` -/

/-- UTF-8 bytes of one scalar value. -/
def utf8Bytes (c : Char) : List Nat :=
  let n := c.toNat
  if n < 128 then [n]
  else if n < 2048 then [192 + n / 64, 128 + n % 64]
  else if n < 65536 then [224 + n / 4096, 128 + n / 64 % 64, 128 + n % 64]
  else [240 + n / 262144, 128 + n / 4096 % 64, 128 + n / 64 % 64, 128 + n % 64]

/-- `s.encode()`: UTF-8 bytes of the string. -/
def utf8 (s : List Char) : List Nat := s.flatMap utf8Bytes

def w32 (x : Nat) : Nat := x % 4294967296

/-- Right rotation of a 32-bit word. -/
def rotr (k x : Nat) : Nat := x / 2 ^ k + x % 2 ^ k * 2 ^ (32 - k)

def shr (k x : Nat) : Nat := x / 2 ^ k

def bnot32 (x : Nat) : Nat := Nat.xor x 4294967295

def bigS0 (x : Nat) : Nat := Nat.xor (rotr 2 x) (Nat.xor (rotr 13 x) (rotr 22 x))

def bigS1 (x : Nat) : Nat := Nat.xor (rotr 6 x) (Nat.xor (rotr 11 x) (rotr 25 x))

def smallS0 (x : Nat) : Nat := Nat.xor (rotr 7 x) (Nat.xor (rotr 18 x) (shr 3 x))

def smallS1 (x : Nat) : Nat := Nat.xor (rotr 17 x) (Nat.xor (rotr 19 x) (shr 10 x))

def chF (e f g : Nat) : Nat := Nat.xor (Nat.land e f) (Nat.land (bnot32 e) g)

def majF (a b c : Nat) : Nat :=
  Nat.xor (Nat.land a b) (Nat.xor (Nat.land a c) (Nat.land b c))

/-- The eight SHA-256 working variables. -/
structure H8 where
  a : Nat
  b : Nat
  c : Nat
  d : Nat
  e : Nat
  f : Nat
  g : Nat
  h : Nat

/-- The eight initial hash words of SHA-256 (FIPS 180-4), in decimal. -/
def initH : H8 :=
  ⟨1779033703, 3144134277, 1013904242, 2773480762,
   1359893119, 2600822924, 528734635, 1541459225⟩

/-- The 64 SHA-256 round constants (FIPS 180-4), in decimal. -/
def K64 : List Nat :=
  [1116352408, 1899447441, 3049323471, 3921009573, 961987163, 1508970993, 2453635748,
   2870763221, 3624381080, 310598401, 607225278, 1426881987, 1925078388, 2162078206,
   2614888103, 3248222580, 3835390401, 4022224774, 264347078, 604807628, 770255983,
   1249150122, 1555081692, 1996064986, 2554220882, 2821834349, 2952996808, 3210313671,
   3336571891, 3584528711, 113926993, 338241895, 666307205, 773529912, 1294757372,
   1396182291, 1695183700, 1986661051, 2177026350, 2456956037, 2730485921, 2820302411,
   3259730800, 3345764771, 3516065817, 3600352804, 4094571909, 275423344, 430227734,
   506948616, 659060556, 883997877, 958139571, 1322822218, 1537002063, 1747873779,
   1955562222, 2024104815, 2227730452, 2361852424, 2428436474, 2756734187, 3204031479,
   3329325298]

/-- Big-endian 8-byte encoding of the message bit length. -/
def lenBytes64 (n : Nat) : List Nat :=
  [n / 2 ^ 56 % 256, n / 2 ^ 48 % 256, n / 2 ^ 40 % 256, n / 2 ^ 32 % 256,
   n / 2 ^ 24 % 256, n / 2 ^ 16 % 256, n / 2 ^ 8 % 256, n % 256]

/-- SHA-256 padding: `0x80`, zeros to 56 mod 64, then the bit length. -/
def padBytes (msg : List Nat) : List Nat :=
  let L := msg.length
  let z := (119 - L % 64) % 64
  msg ++ 128 :: List.replicate z 0 ++ lenBytes64 (8 * L)

/-- Big-endian 32-bit words from bytes. -/
def bytesToWords : List Nat → List Nat
  | a :: b :: c :: d :: t => (((a * 256 + b) * 256 + c) * 256 + d) :: bytesToWords t
  | _ => []

/-- Split a word list into rows of 16 (fuel-bounded). -/
def chunk16 : Nat → List Nat → List (List Nat)
  | 0, _ => []
  | _, [] => []
  | fuel + 1, l => l.take 16 :: chunk16 fuel (l.drop 16)

/-- One step of the message-schedule extension, newest word at the head. -/
def extendStep (r : List Nat) : List Nat :=
  w32 (smallS1 (r.getD 1 0) + r.getD 6 0 + smallS0 (r.getD 14 0) + r.getD 15 0) :: r

/-- The 64-entry message schedule of one block. -/
def schedule (ws : List Nat) : List Nat :=
  ((List.range 48).foldl (fun r _ => extendStep r) ws.reverse).reverse

/-- One SHA-256 round. -/
def round1 (st : H8) (kw : Nat × Nat) : H8 :=
  let t1 := st.h + bigS1 st.e + chF st.e st.f st.g + kw.1 + kw.2
  let t2 := bigS0 st.a + majF st.a st.b st.c
  ⟨w32 (t1 + t2), st.a, st.b, st.c, w32 (st.d + t1), st.e, st.f, st.g⟩

/-- Compress one 16-word block into the running hash. -/
def compressBlock (hs : H8) (block : List Nat) : H8 :=
  let st := (K64.zip (schedule block)).foldl round1 hs
  ⟨w32 (hs.a + st.a), w32 (hs.b + st.b), w32 (hs.c + st.c), w32 (hs.d + st.d),
   w32 (hs.e + st.e), w32 (hs.f + st.f), w32 (hs.g + st.g), w32 (hs.h + st.h)⟩

/-- Big-endian bytes of a 32-bit word. -/
def wordBytes (w : Nat) : List Nat :=
  [w / 16777216 % 256, w / 65536 % 256, w / 256 % 256, w % 256]

def digestOf (h : H8) : List Nat :=
  wordBytes h.a ++ wordBytes h.b ++ wordBytes h.c ++ wordBytes h.d ++
  wordBytes h.e ++ wordBytes h.f ++ wordBytes h.g ++ wordBytes h.h

/-- SHA-256 digest (32 bytes) of a byte string. -/
def sha256Bytes (msg : List Nat) : List Nat :=
  digestOf ((chunk16 (msg.length + 9) (bytesToWords (padBytes msg))).foldl compressBlock initH)

/-- Lowercase hex digit. -/
def hexDigit (n : Nat) : Char :=
  if n < 10 then Char.ofNat (48 + n) else Char.ofNat (87 + n)

def byteHex (b : Nat) : List Char := [hexDigit (b / 16), hexDigit (b % 16)]

/-- `hashlib.sha256(msg).hexdigest()`. -/
def sha256Hex (msg : List Nat) : List Char := (sha256Bytes msg).flatMap byteHex

/-! ## `urllib.parse.urlencode` and the request fingerprint -/

/-- Bytes left unquoted by `urllib.parse.quote`'s `ALWAYS_SAFE` set. -/
def isSafeByte (b : Nat) : Bool :=
  (65 ≤ b && b ≤ 90) || (97 ≤ b && b ≤ 122) || (48 ≤ b && b ≤ 57) ||
  b == 95 || b == 46 || b == 45 || b == 126

def hexDigitU (n : Nat) : Char :=
  if n < 10 then Char.ofNat (48 + n) else Char.ofNat (55 + n)

/-- `urllib.parse.quote_plus` on one UTF-8 byte: space becomes `+`, safe
bytes stay, the rest become uppercase `%XX`. -/
def quoteByte (b : Nat) : List Char :=
  if b == 32 then ['+']
  else if isSafeByte b then [Char.ofNat b]
  else ['%', hexDigitU (b / 16), hexDigitU (b % 16)]

def quotePlus (s : List Char) : List Char := (utf8 s).flatMap quoteByte

/-- `urllib.parse.urlencode` over the (ordered) items of the query dict. -/
def urlencode (params : List (List Char × List Char)) : List Char :=
  List.intercalate ['&'] (params.map (fun kv => quotePlus kv.1 ++ '=' :: quotePlus kv.2))

/-- `full_path = f"/{path}?{query_string}" if query_string else f"/{path}"`. -/
def full_path_of (path : List Char) (params : List (List Char × List Char)) :
    List Char :=
  let qs := urlencode params
  if qs != [] then '/' :: path ++ '?' :: qs else '/' :: path

/-- `request_hash = hashlib.sha256(full_path.encode()).hexdigest()`. -/
def request_hash_of (path : List Char) (params : List (List Char × List Char)) :
    List Char :=
  sha256Hex (utf8 (full_path_of path params))

/-- `upstream_url = f"https:/{full_path}"`. -/
def upstream_url_of (path : List Char) (params : List (List Char × List Char)) :
    List Char :=
  "https:/".toList ++ full_path_of path params

/-- Modelled from the spec: the inbound HTTP surface is "a single catch-all
route accepting the upstream domain and path as the request path, with query
parameters passed through verbatim"; request parsing into path/query is a
thin I/O wrapper (Flask/werkzeug, not part of this repository).  A raw query
string (absent modelled as `none`, a bare `?` as `some []`) is split on `&`,
empty fields are dropped and each field is split at its first `=`; the WSGI
layer supplies an empty query string when the target has no `?`.
Percent-decoding of the fields is not modelled (it does not affect whether
the parameter list is empty). -/
def requestArgs (raw : Option (List Char)) : List (List Char × List Char) :=
  ((raw.getD []).splitOn '&').filterMap
    (fun f => if f.isEmpty then none else some (splitFirstEq f))
where
  splitFirstEq : List Char → List Char × List Char
    | [] => ([], [])
    | '=' :: t => ([], t)
    | c :: t =>
      let r := splitFirstEq t
      (c :: r.1, r.2)

/-! ## The proxy orchestrator

`proxy` from `app.py`, with the collaborators made explicit: the cache table
`db`, two availability flags (`readOk`/`writeOk` false means the
corresponding SQLite call raises), and the outcome `up` of
`urllib.request.urlopen`.  The result is the Flask response, the trace of
collaborator calls attempted, and the final cache table. -/

/-- Collaborator calls attempted by one request. -/
inductive Ev where
  | cacheGet (k : List Char)
  | cachePut (k v : List Char)
  | upstreamCall (url : List Char)
deriving DecidableEq

/-- A Flask response: body, status, headers. -/
structure Resp where
  body : List Char
  status : Int
  headers : List (List Char × List Char)
deriving DecidableEq

/-- Outcome of `urllib.request.urlopen`: a response, an
`urllib.error.HTTPError` carrying a status code, or any other exception. -/
inductive UpResult where
  | success (status : Int) (body : List Char)
  | httpError (code : Int) (msg : List Char)
  | failure (msg : List Char)

def ctHeader : List Char × List Char :=
  ("Content-Type".toList, "application/json".toList)

def hitHeaders : List (List Char × List Char) :=
  [ctHeader, ("X-Cache".toList, "HIT".toList)]

def missHeaders : List (List Char × List Char) :=
  [ctHeader, ("X-Cache".toList, "MISS".toList)]

/-- `jsonify({"error": msg})` rendered by Flask (`json.dumps` plus a
newline), together with the given status; assumes `msg` needs no JSON
escaping, which holds for every message this program produces. -/
def jsonErrorBody (msg : List Char) : List Char :=
  "\x7b\"error\": \"".toList ++ msg ++ "\"\x7d\n".toList

def jsonifyResp (msg : List Char) (status : Int) : Resp :=
  ⟨jsonErrorBody msg, status, [ctHeader]⟩

/-- Abstraction of `str(e)` for the exceptions escaping
`should_cache_response`; the interpreter's message text is not modelled. -/
def pyErrMsg : PyErr → List Char
  | .typeError => "TypeError".toList
  | .keyError => "KeyError".toList
  | .decodeError => "JSONDecodeError".toList

/-- The part of `proxy` from the upstream request onward: call `urlopen`,
evaluate `should_cache_response` (whose uncaught exception is absorbed by
the outer `except Exception` into a 500), attempt the cache write when
admitted (its own failure is caught and ignored), and build the response. -/
def missPhase (path url : List Char) (rh : Option (List Char))
    (db : List (List Char × List Char)) (writeOk : Bool) (up : UpResult)
    (tr : List Ev) : Resp × List Ev × List (List Char × List Char) :=
  match up with
  | .success status data =>
    match should_cache_response path status data with
    | .error e => (jsonifyResp (pyErrMsg e) 500, tr ++ [Ev.upstreamCall url], db)
    | .ok sc =>
      match rh with
      | some h =>
        if sc then
          (⟨data, status, missHeaders⟩, tr ++ [Ev.upstreamCall url, Ev.cachePut h data],
           if writeOk then cache_data db h data else db)
        else (⟨data, status, missHeaders⟩, tr ++ [Ev.upstreamCall url], db)
      | none => (⟨data, status, missHeaders⟩, tr ++ [Ev.upstreamCall url], db)
  | .httpError code msg => (jsonifyResp msg code, tr ++ [Ev.upstreamCall url], db)
  | .failure msg => (jsonifyResp msg 500, tr ++ [Ev.upstreamCall url], db)

/-- `proxy` from `app.py`. -/
def proxy (path : List Char) (params : List (List Char × List Char))
    (db : List (List Char × List Char)) (readOk writeOk : Bool) (up : UpResult) :
    Resp × List Ev × List (List Char × List Char) :=
  if !is_allowed_domain path then
    (jsonifyResp "Domain not allowed".toList 403, [], db)
  else
    let fp := full_path_of path params
    let url := "https:/".toList ++ fp
    if is_cacheable_path path then
      let h := sha256Hex (utf8 fp)
      if readOk then
        match get_cached_data db h with
        | some d =>
          if d != [] then (⟨d, 200, hitHeaders⟩, [Ev.cacheGet h], db)
          else missPhase path url (some h) db writeOk up [Ev.cacheGet h]
        | none => missPhase path url (some h) db writeOk up [Ev.cacheGet h]
      else missPhase path url (some h) db writeOk up [Ev.cacheGet h]
    else missPhase path url none db writeOk up []

/-! ## Concrete requests used as witnesses -/

def oxrPathEx : List Char := "openexchangerates.org/api/historical/2024-01-01.json".toList

def oxrParamsEx : List (List Char × List Char) :=
  [("app_id".toList, "test".toList), ("base".toList, "USD".toList)]

/-- A cache table holding an empty-string body under the fingerprint of
`oxrPathEx`/`oxrParamsEx`. -/
def oxrDbEmpty : List (List Char × List Char) :=
  [(request_hash_of oxrPathEx oxrParamsEx, [])]

def oxrPathEx2 : List Char := "openexchangerates.org/api/historical/2023-06-30.json".toList

/-- A cache table holding a non-empty body under the fingerprint of
`oxrPathEx2` with no query parameters. -/
def oxrDbSeeded : List (List Char × List Char) :=
  [(request_hash_of oxrPathEx2 [], "\x7b\"rates\": \x7b\"AUD\": 1.5\x7d\x7d".toList)]

def tdPathEx : List Char := "api.twelvedata.com/eod/AAPL".toList

/-- A cache table holding an empty-string body under the fingerprint of
`tdPathEx` with no query parameters. -/
def tdDbEmpty : List (List Char × List Char) :=
  [(request_hash_of tdPathEx [], [])]

/-! ## Helper lemmas -/

theorem startsWithL_trans {s p1 p2 : List Char} (h1 : startsWithL s p1 = true)
    (h2 : startsWithL p1 p2 = true) : startsWithL s p2 = true := by
  induction p2 generalizing s p1 with
  | nil => cases s <;> rfl
  | cons b bs ih =>
    cases p1 with
    | nil => simp [startsWithL] at h2
    | cons a as =>
      cases s with
      | nil => simp [startsWithL] at h1
      | cons c cs =>
        simp only [startsWithL, Bool.and_eq_true, beq_iff_eq] at h1 h2 ⊢
        exact ⟨h1.1.trans h2.1, ih h1.2 h2.2⟩

theorem startsWithL_head_conflict {s : List Char} {a b : Char} {as bs : List Char}
    (hne : a ≠ b) (h : startsWithL s (a :: as) = true) :
    startsWithL s (b :: bs) = false := by
  cases s with
  | nil => simp [startsWithL] at h
  | cons c cs =>
    simp only [startsWithL, Bool.and_eq_true, beq_iff_eq] at h
    simp only [startsWithL, Bool.and_eq_false_iff, beq_eq_false_iff_ne]
    exact Or.inl (h.1 ▸ hne)

/-- A path cacheable via the openexchangerates pattern. -/
theorem cacheable_of_oxr {path : List Char}
    (h : startsWithL (pyLstrip path) "openexchangerates.org/api/historical".toList = true) :
    is_cacheable_path path = true := by
  simp only [is_cacheable_path, CACHEABLE_PATHS, List.any_cons, List.any_nil,
    Bool.or_false, Bool.or_eq_true]
  exact Or.inl h

/-- A path cacheable via the twelvedata pattern. -/
theorem cacheable_of_td {path : List Char}
    (h : startsWithL (pyLstrip path) "api.twelvedata.com/eod".toList = true) :
    is_cacheable_path path = true := by
  simp only [is_cacheable_path, CACHEABLE_PATHS, List.any_cons, List.any_nil,
    Bool.or_false, Bool.or_eq_true]
  exact Or.inr h

/-- Every cacheable path is on an allowed domain: each cacheable-path
pattern extends an allow-listed domain. -/
theorem allowed_of_cacheable {path : List Char}
    (h : is_cacheable_path path = true) : is_allowed_domain path = true := by
  simp only [is_cacheable_path, CACHEABLE_PATHS, List.any_cons, List.any_nil,
    Bool.or_false, Bool.or_eq_true] at h
  simp only [is_allowed_domain, ALLOWED_DOMAINS, List.any_cons, List.any_nil,
    Bool.or_false, Bool.or_eq_true]
  rcases h with h | h
  · exact Or.inl (startsWithL_trans h (by decide))
  · exact Or.inr (startsWithL_trans h (by decide))

theorem oxr_of_oxrHist {pc : List Char}
    (h : startsWithL pc "openexchangerates.org/api/historical".toList = true) :
    startsWithL pc "openexchangerates.org".toList = true :=
  startsWithL_trans h (by decide)

theorem td_of_tdEod {pc : List Char}
    (h : startsWithL pc "api.twelvedata.com/eod".toList = true) :
    startsWithL pc "api.twelvedata.com".toList = true :=
  startsWithL_trans h (by decide)

/-- A twelvedata path does not match the openexchangerates branch. -/
theorem not_oxr_of_tdEod {pc : List Char}
    (h : startsWithL pc "api.twelvedata.com/eod".toList = true) :
    startsWithL pc "openexchangerates.org".toList = false := by
  have h' : startsWithL pc ('a' :: "pi.twelvedata.com/eod".toList) = true := h
  exact startsWithL_head_conflict (by decide) h'

theorem dictHasKey_false_of_getLast_none {kvs : List (List Char × JVal)}
    {k : List Char} (h : dictGetLast kvs k = none) : dictHasKey kvs k = false := by
  induction kvs with
  | nil => rfl
  | cons kv t ih =>
    obtain ⟨k', v⟩ := kv
    simp only [dictGetLast] at h
    rcases hr : dictGetLast t k with _ | r
    · rw [hr] at h
      simp only [dictHasKey, List.any_cons, Bool.or_eq_false_iff]
      refine ⟨?_, ih hr⟩
      by_cases hk : (k' == k) = true
      · simp [hk] at h
      · simpa using hk
    · rw [hr] at h
      simp at h

theorem dictHasKey_true_of_getLast_some {kvs : List (List Char × JVal)}
    {k : List Char} {v : JVal} (h : dictGetLast kvs k = some v) :
    dictHasKey kvs k = true := by
  induction kvs with
  | nil => simp [dictGetLast] at h
  | cons kv t ih =>
    obtain ⟨k', v'⟩ := kv
    simp only [dictGetLast] at h
    rcases hr : dictGetLast t k with _ | r
    · rw [hr] at h
      by_cases hk : (k' == k) = true
      · simp [dictHasKey, hk]
      · simp [hk] at h
    · rw [hr] at h
      obtain rfl : r = v := by simpa using h
      simp only [dictHasKey, List.any_cons, Bool.or_eq_true]
      exact Or.inr (ih hr)

theorem find?_filter_ne (db : List (List Char × List Char)) (k : List Char) :
    (db.filter (fun r => r.1 != k)).find? (fun r => r.1 == k) = none := by
  rw [List.find?_eq_none]
  intro x hx
  have := (List.mem_filter.mp hx).2
  simpa [bne] using this

theorem store_get_nil (k : List Char) : get_cached_data [] k = none := rfl

theorem store_get_put_self (db : List (List Char × List Char)) (k v : List Char) :
    get_cached_data (cache_data db k v) k = some v := by
  unfold get_cached_data cache_data
  rw [List.find?_append, find?_filter_ne]
  simp [List.find?]

theorem store_get_absent (db : List (List Char × List Char)) (k : List Char)
    (h : ∀ e ∈ db, e.1 ≠ k) : get_cached_data db k = none := by
  unfold get_cached_data
  induction db with
  | nil => rfl
  | cons e t ih =>
    have he : (e.1 == k) = false := by
      simpa using h e (List.mem_cons_self e t)
    simp only [List.find?, he]
    exact ih (fun x hx => h x (List.mem_cons_of_mem e hx))

theorem store_countP_put_self (db : List (List Char × List Char)) (k v : List Char) :
    (cache_data db k v).countP (fun r => r.1 == k) = 1 := by
  unfold cache_data
  rw [List.countP_append]
  have h0 : (db.filter (fun r => r.1 != k)).countP (fun r => r.1 == k) = 0 := by
    rw [List.countP_eq_zero]
    intro a ha
    have := (List.mem_filter.mp ha).2
    simpa [bne] using this
  simp [h0, List.countP_cons]

theorem countP_filter_le (p q : (List Char × List Char) → Bool)
    (l : List (List Char × List Char)) : (l.filter q).countP p ≤ l.countP p := by
  induction l with
  | nil => simp
  | cons e t ih =>
    by_cases hq : q e = true
    · simp only [List.filter_cons, hq, if_true, List.countP_cons]
      omega
    · simp only [List.filter_cons, hq, if_false, List.countP_cons, Bool.false_eq_true,
        reduceIte]
      omega

theorem store_countP_put_le (db : List (List Char × List Char)) (k v k2 : List Char)
    (h : db.countP (fun r => r.1 == k2) ≤ 1) :
    (cache_data db k v).countP (fun r => r.1 == k2) ≤ 1 := by
  by_cases hk : k2 = k
  · subst hk
    simp [store_countP_put_self]
  · unfold cache_data
    rw [List.countP_append]
    have h2 : ([(k, v)] : List (List Char × List Char)).countP (fun r => r.1 == k2) = 0 := by
      have hkk : (k == k2) = false := by
        simpa using Ne.symm hk
      simp [List.countP_cons, hkk]
    have h1 := countP_filter_le (fun r => r.1 == k2) (fun r => r.1 != k) db
    omega

theorem digestOf_length (h : H8) : (digestOf h).length = 32 := by
  simp [digestOf, wordBytes]

theorem flatMap_byteHex_length (bs : List Nat) :
    (bs.flatMap byteHex).length = 2 * bs.length := by
  induction bs with
  | nil => rfl
  | cons b t ih =>
    simp only [List.flatMap_cons, List.length_append, ih, byteHex]
    simp
    omega

theorem sha256Hex_length (m : List Nat) : (sha256Hex m).length = 64 := by
  unfold sha256Hex sha256Bytes
  rw [flatMap_byteHex_length, digestOf_length]

/-- The response and the trace produced by the upstream phase do not depend
on the cache table or on whether the cache write succeeds (the write error
is caught and only logged). -/
theorem missPhase_db_indep (path url : List Char) (rh : Option (List Char))
    (db db' : List (List Char × List Char)) (w w' : Bool) (up : UpResult)
    (tr : List Ev) :
    (missPhase path url rh db w up tr).1 = (missPhase path url rh db' w' up tr).1 ∧
    (missPhase path url rh db w up tr).2.1 = (missPhase path url rh db' w' up tr).2.1 := by
  cases up with
  | success st d =>
    simp only [missPhase]
    cases hsc : should_cache_response path st d with
    | error e => simp
    | ok sc =>
      cases rh with
      | none => simp
      | some h => cases sc <;> simp
  | httpError c m => simp [missPhase]
  | failure m => simp [missPhase]

/-- The upstream phase always records an upstream call. -/
theorem missPhase_upstream_mem (path url : List Char) (rh : Option (List Char))
    (db : List (List Char × List Char)) (w : Bool) (up : UpResult) (tr : List Ev) :
    Ev.upstreamCall url ∈ (missPhase path url rh db w up tr).2.1 := by
  cases up with
  | success st d =>
    simp only [missPhase]
    cases hsc : should_cache_response path st d with
    | error e => simp
    | ok sc =>
      cases rh with
      | none => simp
      | some h => cases sc <;> simp
  | httpError c m => simp [missPhase]
  | failure m => simp [missPhase]

/-- Under the twelvedata-eod prefix, `should_cache_response` at status 200
reduces to the twelvedata body inspection. -/
theorem scr_td_reduce {path : List Char} (body : List Char)
    (h : startsWithL (pyLstrip path) "api.twelvedata.com/eod".toList = true) :
    should_cache_response path 200 body = tdBranch body := by
  have hc := cacheable_of_td h
  have hoxr := not_oxr_of_tdEod h
  have htd := td_of_tdEod h
  simp only [should_cache_response, hc, hoxr, htd]
  rfl

/-! ## Claims -/

/-- C1: the claim says the Stage A predicates and `should_cache_response`
return a boolean and never raise for any body.  The code disagrees: on the
cacheable eod path with status 200 and the well-formed JSON body `null`,
`"code" in json_data` raises a `TypeError` which the handler (catching only
`json.JSONDecodeError` and `KeyError`) does not absorb. -/
theorem C1_stageB_raises :
    should_cache_response "/api.twelvedata.com/eod".toList 200 "null".toList =
      .error .typeError := by
  rfl

/-- C2 counterexample: the claim says a body that parses as JSON without a
`"code"` field is admitted (`true`); but the body `5` parses to an `int`,
the membership test raises `TypeError`, and `should_cache_response` raises
instead of returning a boolean. -/
theorem C2_counterexample :
    should_cache_response "api.twelvedata.com/eod".toList 200 "5".toList =
      .error .typeError := by
  rfl

/-- C2 (amended): for a path under the twelvedata-eod pattern with status
200: a body that fails to parse as JSON is admitted; a body parsing to a
JSON object without a `"code"` field is admitted; a body parsing to a JSON
object whose `"code"` field is an integer is rejected exactly when that code
equals 429 or lies in the range 500 to 599, and admitted otherwise.
(Bodies parsing to non-objects, or to objects with a non-numeric `"code"`
value, are excluded: there the code can raise `TypeError`.) -/
theorem C2_eod_admission (path body : List Char)
    (h : startsWithL (pyLstrip path) "api.twelvedata.com/eod".toList = true) :
    (jparse body = none → should_cache_response path 200 body = .ok true) ∧
    (∀ kvs, jparse body = some (JVal.jobj kvs) →
      (dictGetLast kvs codeL = none → should_cache_response path 200 body = .ok true) ∧
      (∀ n : Int, dictGetLast kvs codeL = some (JVal.jint n) →
        should_cache_response path 200 body =
          .ok (decide ¬(n = 429 ∨ (500 ≤ n ∧ n < 600))))) := by
  rw [scr_td_reduce body h]
  refine ⟨?_, ?_⟩
  · intro hp
    simp [tdBranch, tdTry, hp]
  · intro kvs hp
    refine ⟨?_, ?_⟩
    · intro hget
      have hhk := dictHasKey_false_of_getLast_none hget
      simp [tdBranch, tdTry, hp, pyInCode, hhk]
    · intro n hget
      have hhk := dictHasKey_true_of_getLast_some hget
      simp only [tdBranch, tdTry, hp, pyInCode, hhk, if_true, pySubscriptCode, hget,
        errCodeCheck, pyEqInt, pyGeInt, pyLtInt]
      by_cases h429 : n = 429
      · subst h429
        simp
      · have hb : (n == 429) = false := by simpa using h429
        by_cases h500 : (500 : Int) ≤ n
        · by_cases h600 : n < 600
          · simp [hb, h429, h500, h600]
          · simp [hb, h429, h500, h600]
        · simp [hb, h429, h500]

/-- C2 witness: on the cacheable eod path, status 200, body
`\x7b"code": 429\x7d` is rejected. -/
theorem C2_witness :
    should_cache_response "/api.twelvedata.com/eod".toList 200
      "\x7b\"code\": 429\x7d".toList = .ok false := by
  have h :=
    ((C2_eod_admission "/api.twelvedata.com/eod".toList
      "\x7b\"code\": 429\x7d".toList (by rfl)).2
      [(codeL, JVal.jint 429)] (by rfl)).2 429 (by rfl)
  have e : (decide ¬((429 : Int) = 429 ∨ ((500 : Int) ≤ 429 ∧ (429 : Int) < 600))) = false := by
    decide
  rw [e] at h
  exact h

/-- C3: for any path under the openexchangerates historical pattern,
`should_cache_response` admits every body at status 200 and rejects every
body at any other status. -/
theorem C3_historical_policy (path : List Char) (s : Int) (body : List Char)
    (h : startsWithL (pyLstrip path) "openexchangerates.org/api/historical".toList = true) :
    should_cache_response path 200 body = .ok true ∧
    (s ≠ 200 → should_cache_response path s body = .ok false) := by
  have hc := cacheable_of_oxr h
  have hoxr := oxr_of_oxrHist h
  refine ⟨?_, ?_⟩
  · simp only [should_cache_response, hc, hoxr]
    rfl
  · intro hs
    have hbne : (s != 200) = true := by simpa using hs
    simp only [should_cache_response, hc, hbne]
    rfl

/-- C3 witness: the historical path admits a 200 body and rejects a 404. -/
theorem C3_witness :
    should_cache_response "/openexchangerates.org/api/historical/2024-01-01.json".toList
      200 "\x7b\"rates\": \x7b\x7d\x7d".toList = .ok true ∧
    should_cache_response "/openexchangerates.org/api/historical/2024-01-01.json".toList
      404 "\x7b\"error\": \"not found\"\x7d".toList = .ok false := by
  have h := C3_historical_policy
    "/openexchangerates.org/api/historical/2024-01-01.json".toList 404
    "\x7b\"rates\": \x7b\x7d\x7d".toList (by rfl)
  have h2 := C3_historical_policy
    "/openexchangerates.org/api/historical/2024-01-01.json".toList 404
    "\x7b\"error\": \"not found\"\x7d".toList (by rfl)
  exact ⟨h.1, h2.2 (by decide)⟩

/-- C4: the request fingerprint is deterministic, always a fixed-length
64-hex-character key, and a request carrying no query parameters and a
request carrying an empty query string (absent `?` versus bare `?`) receive
the identical fingerprint, since both present the handler with an empty
parameter dictionary and `full_path` appends `?` only for a non-empty
encoded query. -/
theorem C4_fingerprint :
    (∀ (path : List Char) (params : List (List Char × List Char)),
      request_hash_of path params = request_hash_of path params ∧
      (request_hash_of path params).length = 64) ∧
    (∀ path : List Char,
      request_hash_of path (requestArgs none) =
        request_hash_of path (requestArgs (some []))) := by
  refine ⟨fun path params => ⟨rfl, sha256Hex_length _⟩, fun path => rfl⟩

/-- C7: storing then reading a key returns exactly the stored payload
(including the empty string), and reading a key never written returns the
absence signal `none` rather than raising. -/
theorem C7_store_roundtrip :
    (∀ (db : List (List Char × List Char)) (k v : List Char),
      get_cached_data (cache_data db k v) k = some v) ∧
    (∀ (db : List (List Char × List Char)) (k : List Char),
      (∀ e ∈ db, e.1 ≠ k) → get_cached_data db k = none) :=
  ⟨store_get_put_self, store_get_absent⟩

/-- C7 witness: round-trip with the empty payload on an empty table, and a
miss on a table not containing the key. -/
theorem C7_witness :
    get_cached_data (cache_data [] "k".toList []) "k".toList = some [] ∧
    get_cached_data [("a".toList, "b".toList)] "k".toList = none :=
  ⟨C7_store_roundtrip.1 [] "k".toList [],
   C7_store_roundtrip.2 [("a".toList, "b".toList)] "k".toList (by decide)⟩

/-- C8: overwriting a key leaves exactly one row for it and the read returns
the second value; a write preserves the at-most-one-row-per-fingerprint
invariant for every key. -/
theorem C8_overwrite :
    (∀ (db : List (List Char × List Char)) (k v1 v2 : List Char),
      get_cached_data (cache_data (cache_data db k v1) k v2) k = some v2 ∧
      (cache_data (cache_data db k v1) k v2).countP (fun r => r.1 == k) = 1) ∧
    (∀ (db : List (List Char × List Char)) (k v k2 : List Char),
      db.countP (fun r => r.1 == k2) ≤ 1 →
      (cache_data db k v).countP (fun r => r.1 == k2) ≤ 1) :=
  ⟨fun db k v1 v2 =>
    ⟨store_get_put_self (cache_data db k v1) k v2,
     store_countP_put_self (cache_data db k v1) k v2⟩,
   store_countP_put_le⟩

/-- C8 witness: double write on the empty table, and invariant preservation
on a concrete table. -/
theorem C8_witness :
    (get_cached_data (cache_data (cache_data [] "k".toList "v1".toList) "k".toList
        "v2".toList) "k".toList = some "v2".toList ∧
      (cache_data (cache_data [] "k".toList "v1".toList) "k".toList
        "v2".toList).countP (fun r => r.1 == "k".toList) = 1) ∧
    (cache_data [("a".toList, "b".toList)] "k".toList "v".toList).countP
      (fun r => r.1 == "a".toList) ≤ 1 :=
  ⟨C8_overwrite.1 [] "k".toList "v1".toList "v2".toList,
   C8_overwrite.2 [("a".toList, "b".toList)] "k".toList "v".toList "a".toList (by decide)⟩

/-- C5: a path matching no allow-listed domain is not allowed, and the
orchestrator answers 403 with a JSON error body, attempts no collaborator
call (no upstream contact, no cache read or write) and leaves the cache
table unchanged. -/
theorem C5_forbidden (path : List Char) (params : List (List Char × List Char))
    (db : List (List Char × List Char)) (r w : Bool) (up : UpResult)
    (h : ∀ d ∈ ALLOWED_DOMAINS, startsWithL (pyLstrip path) d = false) :
    is_allowed_domain path = false ∧
    (proxy path params db r w up).1.status = 403 ∧
    jparse (proxy path params db r w up).1.body =
      some (JVal.jobj [("error".toList, JVal.jstr "Domain not allowed".toList)]) ∧
    (proxy path params db r w up).2.1 = [] ∧
    (proxy path params db r w up).2.2 = db := by
  have h1 := h "openexchangerates.org".toList (List.mem_cons_self _ _)
  have h2 := h "api.twelvedata.com".toList
    (List.mem_cons_of_mem _ (List.mem_cons_self _ _))
  have hna : is_allowed_domain path = false := by
    simp only [is_allowed_domain, ALLOWED_DOMAINS, List.any_cons, List.any_nil, h1, h2]
    rfl
  refine ⟨hna, ?_, ?_, ?_, ?_⟩ <;> simp only [proxy, hna] <;> rfl

/-- C5 witness: a request for a non-allow-listed domain. -/
theorem C5_witness :
    is_allowed_domain "evil.com/api/data".toList = false ∧
    (proxy "evil.com/api/data".toList [] [] true true
      (UpResult.success 200 "x".toList)).1.status = 403 ∧
    jparse (proxy "evil.com/api/data".toList [] [] true true
      (UpResult.success 200 "x".toList)).1.body =
      some (JVal.jobj [("error".toList, JVal.jstr "Domain not allowed".toList)]) ∧
    (proxy "evil.com/api/data".toList [] [] true true
      (UpResult.success 200 "x".toList)).2.1 = [] ∧
    (proxy "evil.com/api/data".toList [] [] true true
      (UpResult.success 200 "x".toList)).2.2 = [] :=
  C5_forbidden "evil.com/api/data".toList [] [] true true
    (UpResult.success 200 "x".toList) (by decide)

/-- C6 counterexample: the claim promises a HIT whenever the fingerprint has
a stored entry, but with a stored empty-string entry the orchestrator serves
a MISS from upstream (the hit branch tests the body's truthiness). -/
theorem C6_counterexample :
    get_cached_data oxrDbEmpty (request_hash_of oxrPathEx oxrParamsEx) = some [] ∧
    (proxy oxrPathEx oxrParamsEx oxrDbEmpty true true
      (UpResult.success 200 "fresh".toList)).1.headers = missHeaders ∧
    (proxy oxrPathEx oxrParamsEx oxrDbEmpty true true
      (UpResult.success 200 "fresh".toList)).1.body = "fresh".toList ∧
    Ev.upstreamCall (upstream_url_of oxrPathEx oxrParamsEx) ∈
      (proxy oxrPathEx oxrParamsEx oxrDbEmpty true true
        (UpResult.success 200 "fresh".toList)).2.1 := by
  refine ⟨rfl, rfl, rfl, ?_⟩
  decide

/-- C6 (amended): for a cacheable request whose fingerprint has a stored
entry with a *non-empty* body, and a readable store, the orchestrator
returns that stored body verbatim with status 200 and `X-Cache: HIT`, and
the upstream client is never invoked (an empty-bodied entry is instead
treated as a miss). -/
theorem C6_cache_hit (path : List Char) (params : List (List Char × List Char))
    (db : List (List Char × List Char)) (w : Bool) (up : UpResult) (v : List Char)
    (hc : is_cacheable_path path = true)
    (hv : get_cached_data db (request_hash_of path params) = some v)
    (hne : v ≠ []) :
    (proxy path params db true w up).1 = ⟨v, 200, hitHeaders⟩ ∧
    ∀ u, Ev.upstreamCall u ∉ (proxy path params db true w up).2.1 := by
  have ha := allowed_of_cacheable hc
  rw [request_hash_of] at hv
  have hbne : (v != []) = true := by simpa using hne
  refine ⟨?_, ?_⟩
  · simp only [proxy, ha, hc, hv, hbne, Bool.not_true, Bool.false_eq_true, if_false,
      if_true]
  · intro u
    simp only [proxy, ha, hc, hv, hbne, Bool.not_true, Bool.false_eq_true, if_false,
      if_true]
    simp

/-- C6 witness: a pre-seeded non-empty entry is served as a HIT without
upstream contact. -/
theorem C6_witness :
    (proxy oxrPathEx2 [] oxrDbSeeded true true
      (UpResult.success 200 "zzz".toList)).1 =
      ⟨"\x7b\"rates\": \x7b\"AUD\": 1.5\x7d\x7d".toList, 200, hitHeaders⟩ ∧
    ∀ u, Ev.upstreamCall u ∉
      (proxy oxrPathEx2 [] oxrDbSeeded true true
        (UpResult.success 200 "zzz".toList)).2.1 :=
  C6_cache_hit oxrPathEx2 [] oxrDbSeeded true
    (UpResult.success 200 "zzz".toList)
    "\x7b\"rates\": \x7b\"AUD\": 1.5\x7d\x7d".toList
    (by rfl) (by rfl) (by decide)

/-- C9: cache-layer failures never change the client-visible response or the
upstream interaction: a failed cache read behaves exactly like a miss on an
empty table, and a failed cache write leaves response and trace unchanged. -/
theorem C9_cache_failures_invisible :
    (∀ (path : List Char) (params : List (List Char × List Char))
      (db : List (List Char × List Char)) (w : Bool) (up : UpResult),
      (proxy path params db false w up).1 = (proxy path params [] true w up).1 ∧
      (proxy path params db false w up).2.1 = (proxy path params [] true w up).2.1) ∧
    (∀ (path : List Char) (params : List (List Char × List Char))
      (db : List (List Char × List Char)) (r : Bool) (up : UpResult),
      (proxy path params db r false up).1 = (proxy path params db r true up).1 ∧
      (proxy path params db r false up).2.1 = (proxy path params db r true up).2.1) := by
  constructor
  · intro path params db w up
    by_cases ha : is_allowed_domain path
    · by_cases hcp : is_cacheable_path path
      · simp only [proxy, ha, hcp, store_get_nil, Bool.not_true, Bool.false_eq_true,
          if_false, if_true]
        exact missPhase_db_indep _ _ _ db [] w w up _
      · simp only [proxy, ha, hcp, Bool.not_true, Bool.false_eq_true, if_false, if_true]
        exact missPhase_db_indep _ _ _ db [] w w up _
    · have ha' : is_allowed_domain path = false := by simpa using ha
      simp [proxy, ha']
  · intro path params db r up
    by_cases ha : is_allowed_domain path
    · by_cases hcp : is_cacheable_path path
      · cases r with
        | false =>
          simp only [proxy, ha, hcp, Bool.not_true, Bool.false_eq_true, if_false, if_true]
          exact missPhase_db_indep _ _ _ db db false true up _
        | true =>
          simp only [proxy, ha, hcp, Bool.not_true, Bool.false_eq_true, if_false, if_true]
          cases hg : get_cached_data db
              (sha256Hex (utf8 (full_path_of path params))) with
          | none => exact missPhase_db_indep _ _ _ db db false true up _
          | some d =>
            by_cases hd : (d != []) = true
            · simp [hd]
            · have hd' : (d != []) = false := by simpa using hd
              simp only [hd', Bool.false_eq_true, if_false]
              exact missPhase_db_indep _ _ _ db db false true up _
      · simp only [proxy, ha, hcp, Bool.not_true, Bool.false_eq_true, if_false, if_true]
        exact missPhase_db_indep _ _ _ db db false true up _
    · have ha' : is_allowed_domain path = false := by simpa using ha
      simp [proxy, ha']

/-- C10: a stored entry whose body is the empty string is not served: the
lookup returns the empty string, yet the orchestrator proceeds exactly as on
a miss and contacts the upstream. -/
theorem C10_empty_entry_is_miss (path : List Char)
    (params : List (List Char × List Char)) (db : List (List Char × List Char))
    (w : Bool) (up : UpResult)
    (hc : is_cacheable_path path = true)
    (hv : get_cached_data db (request_hash_of path params) = some []) :
    (proxy path params db true w up).1 = (proxy path params [] true w up).1 ∧
    Ev.upstreamCall (upstream_url_of path params) ∈
      (proxy path params db true w up).2.1 := by
  have ha := allowed_of_cacheable hc
  rw [request_hash_of] at hv
  constructor
  · simp only [proxy, ha, hc, hv, store_get_nil, Bool.not_true, Bool.false_eq_true,
      if_false, if_true, bne_self_eq_false]
    exact (missPhase_db_indep _ _ _ db [] w w up _).1
  · simp only [proxy, ha, hc, hv, Bool.not_true, Bool.false_eq_true, if_false, if_true,
      bne_self_eq_false]
    exact missPhase_upstream_mem _ _ _ db w up _

/-- C10 witness: a concrete empty-bodied entry under the eod fingerprint is
bypassed in favour of the upstream. -/
theorem C10_witness :
    (proxy tdPathEx [] tdDbEmpty true true
      (UpResult.success 200 "x".toList)).1 =
      (proxy tdPathEx [] [] true true (UpResult.success 200 "x".toList)).1 ∧
    Ev.upstreamCall (upstream_url_of tdPathEx []) ∈
      (proxy tdPathEx [] tdDbEmpty true true
        (UpResult.success 200 "x".toList)).2.1 :=
  C10_empty_entry_is_miss tdPathEx [] tdDbEmpty true
    (UpResult.success 200 "x".toList) (by rfl) (by rfl)

end Apicache
